import Mathlib

/-!
Shallow embedding of soundwave.py (class SoundWaveFactory) and its claims.

Modelling conventions:
- numpy float64 samples are modelled as exact rationals; the numpy sine
  function is an abstract parameter together with the hypothesis that its
  values lie in the interval from -1 to 1, which IEEE sine satisfies.
- astype(np.int16) on a float array is truncation toward zero followed by
  the 16-bit wrap; all values reached by the claims are in range, where the
  wrap is the identity.
- Python exceptions are an Except channel; statements the interpreter runs
  before an exception is raised still take effect, so stateful methods
  return the post-state next to the Except outcome.
- print output is returned as a list of message strings where a claim
  mentions it.
- the file system is a partial map from file name to file data.
-/

set_option autoImplicit false

namespace SoundWaves

/-- SAMPLING_RATE = 44100, from the class constant. -/
def SAMPLING_RATE : ℕ := 44100

/-- DURATION_SECONDS = 5, from the class constant. -/
def DURATION_SECONDS : ℕ := 5

/-- SOUND_ARRAY_LEN = SAMPLING_RATE * DURATION_SECONDS. -/
def SOUND_ARRAY_LEN : ℕ := SAMPLING_RATE * DURATION_SECONDS

/-- MAX_AMPLITUDE = 2 ** 13. -/
def MAX_AMPLITUDE : ℤ := 2 ^ 13

/-- The NOTES dictionary of soundwave.py: note identifier to frequency in Hz. -/
def NOTES : List (String × ℚ) := [
  ("0", 0),
  ("e0", 20.60172), ("f0", 21.82676), ("f#0", 23.12465), ("g0", 24.49971),
  ("g#0", 25.95654), ("a0", 27.50000), ("a#0", 29.13524), ("b0", 30.86771),
  ("c0", 32.70320), ("c#0", 34.64783), ("d0", 36.70810), ("d#0", 38.89087),
  ("e1", 41.20344), ("f1", 43.65353), ("f#1", 46.24930), ("g1", 48.99943),
  ("g#1", 51.91309), ("a1", 55.00000), ("a#1", 58.27047), ("b1", 61.73541),
  ("c1", 65.40639), ("c#1", 69.29566), ("d1", 73.41619), ("d#1", 77.78175),
  ("e2", 82.40689), ("f2", 87.30706), ("f#2", 92.49861), ("g2", 97.99886),
  ("g#2", 103.8262), ("a2", 110.0000), ("a#2", 116.5409), ("b2", 123.4708),
  ("c2", 130.8128), ("c#2", 138.5913), ("d2", 146.8324), ("d#2", 155.5635),
  ("e3", 164.8138), ("f3", 174.6141), ("f#3", 184.9972), ("g3", 195.9977),
  ("g#3", 207.6523), ("a3", 220.0000), ("a#3", 233.0819), ("b3", 246.9417),
  ("c3", 261.6256), ("c#3", 277.1826), ("d3", 293.6648), ("d#3", 311.1270),
  ("e4", 329.6276), ("f4", 349.2282), ("f#4", 369.9944), ("g4", 391.9954),
  ("g#4", 415.3047), ("a4", 440.0000), ("a#4", 466.1638), ("b4", 493.8833),
  ("c4", 523.2511), ("c#4", 554.3653), ("d4", 587.3295), ("d#4", 622.2540),
  ("e5", 659.2551), ("f5", 698.4565), ("f#5", 739.9888), ("g5", 783.9909),
  ("g#5", 830.6094), ("a5", 880.0000), ("a#5", 932.3275), ("b5", 987.7666),
  ("c5", 1046.502), ("c#5", 1108.731), ("d5", 1174.659), ("d#5", 1244.508),
  ("e6", 1318.510), ("f6", 1396.913), ("f#6", 1479.978), ("g6", 1567.982),
  ("g#6", 1661.219), ("a6", 1760.000), ("a#6", 1864.655), ("b6", 1975.533),
  ("c6", 2093.005), ("c#6", 2217.461), ("d6", 2349.318), ("d#6", 2489.016),
  ("e7", 2637.020), ("f7", 2793.826), ("f#7", 2959.955), ("g7", 3135.963),
  ("g#7", 3322.438), ("a7", 3520.000), ("a#7", 3729.310), ("b7", 3951.066),
  ("c7", 4186.009), ("c#7", 4434.922), ("d7", 4698.636), ("d#7", 4978.032)]

/-- Python dict lookup NOTES[note] guarded by the membership test of
get_soundwave: some frequency when the key is present, none otherwise. -/
def lookupNote (note : String) : Option ℚ :=
  (NOTES.find? (fun p => p.1 == note)).map Prod.snd

/-- Errors raised by the embedded methods.  unknownNote stands for the
ValueError of get_soundwave (the UnknownNoteError of the design taxonomy),
fileNotFound for FileNotFoundError. -/
inductive WaveError where
  | unknownNote (note : String)
  | fileNotFound (name : String)
  deriving Repr, DecidableEq

/-- Frequency resolution: the membership test plus dict access at the top of
get_soundwave, exposed as the resolve-frequency operation of the design. -/
def resolve_frequency (note : String) : Except WaveError ℚ :=
  match lookupNote note with
  | some f => Except.ok f
  | none => Except.error (WaveError.unknownNote note)

/-- Truncation toward zero of a rational, the float to int conversion C
narrowing: floor for nonnegative values, ceiling for negative ones. -/
def truncQ (q : ℚ) : ℤ :=
  if 0 ≤ q then ⌊q⌋ else ⌈q⌉

/-- Wrap an integer into the signed 16-bit range, the dtype part of
astype(np.int16); the identity on values already in range. -/
def toInt16 (n : ℤ) : ℤ :=
  (n + 2 ^ 15) % 2 ^ 16 - 2 ^ 15

/-- astype(np.int16) applied to one float64 sample. -/
def quantInt16 (q : ℚ) : ℤ :=
  toInt16 (truncQ q)

/-- The float64 value of np.pi (as a decimal stand-in; the sine function is
abstract, so the exact argument value is never used by a claim). -/
def np_pi : ℚ := 3.141592653589793

/-- np.linspace(0, DURATION_SECONDS, num=SOUND_ARRAY_LEN): SOUND_ARRAY_LEN
uniformly spaced timestamps from 0 to DURATION_SECONDS inclusive. -/
def linspaceTimeline : List ℚ :=
  (List.range SOUND_ARRAY_LEN).map
    (fun i : ℕ => (DURATION_SECONDS : ℚ) * (i : ℚ) / ((SOUND_ARRAY_LEN : ℚ) - 1))

/-- The mutable attributes of a SoundWaveFactory instance. -/
structure SoundWaveFactory where
  common_timeline : List ℚ
  sound_wave : Option (List ℤ)
  note : Option String
  deriving Repr

/-- SoundWaveFactory.__init__. -/
def SoundWaveFactory.init : SoundWaveFactory :=
  ⟨linspaceTimeline, none, none⟩

/-- get_normed_sin: MAX_AMPLITUDE * np.sin(2 * np.pi * frequency * timeline),
with np.sin passed in as the abstract function sinF. -/
def get_normed_sin (sinF : ℚ → ℚ) (timeline : List ℚ) (frequency : ℚ) :
    List ℚ :=
  timeline.map (fun t => (MAX_AMPLITUDE : ℚ) * sinF (2 * np_pi * frequency * t))

/-- get_soundwave: raises ValueError when the note is absent from NOTES,
otherwise samples the sine at the frequency of the note. -/
def get_soundwave (sinF : ℚ → ℚ) (timeline : List ℚ) (note : String) :
    Except WaveError (List ℚ) :=
  match lookupNote note with
  | none => Except.error (WaveError.unknownNote note)
  | some f => Except.ok (get_normed_sin sinF timeline f)

/-- str.replace("#", "s") on a file name (both arguments are single
characters, so a character map is the same function). -/
def replaceHash (s : String) : String :=
  String.mk (s.data.map (fun c => if c = '#' then 's' else c))

/-- create_note: resolves the timeline, sets self.note, generates and
quantizes the wave, derives the output file name and returns the samples.
The post-state is returned in both outcomes because self.note is assigned
before get_soundwave can raise; on success the ok value carries the samples
returned plus the file name passed to wavfile.write. -/
def create_note (sinF : ℚ → ℚ) (f : SoundWaveFactory) (note : String)
    (name : Option String) (timeline : Option (List ℚ)) :
    SoundWaveFactory × Except WaveError (List ℤ × String) :=
  let tl := timeline.getD f.common_timeline
  let f1 : SoundWaveFactory := ⟨f.common_timeline, f.sound_wave, some note⟩
  match get_soundwave sinF tl note with
  | Except.error e => (f1, Except.error e)
  | Except.ok wave =>
      let sw := wave.map quantInt16
      let file_name :=
        match name with
        | none => replaceHash (note ++ "_sin.wav")
        | some n => n ++ ".wav"
      (⟨f.common_timeline, some sw, some note⟩, Except.ok (sw, file_name))

/-- One decimal digit rendered as a character. -/
def digitChar (d : ℕ) : Char :=
  match d with
  | 0 => '0' | 1 => '1' | 2 => '2' | 3 => '3' | 4 => '4'
  | 5 => '5' | 6 => '6' | 7 => '7' | 8 => '8' | _ => '9'

/-- Whether a character is a decimal digit. -/
def isDigitChar (c : Char) : Bool :=
  48 ≤ c.toNat && c.toNat ≤ 57

/-- The numeric value of a digit character. -/
def charDigitVal (c : Char) : ℕ :=
  c.toNat - 48

/-- Decimal rendering of a natural number, most significant digit first. -/
def renderNat (n : ℕ) : List Char :=
  if n = 0 then ['0'] else (Nat.digits 10 n).reverse.map digitChar

/-- Decimal rendering of an integer: the percent-d format of np.savetxt. -/
def renderInt (n : ℤ) : List Char :=
  if n < 0 then '-' :: renderNat n.natAbs else renderNat n.toNat

/-- Parse a nonempty all-digit character list as a natural number. -/
def parseNatChars (cs : List Char) : Option ℕ :=
  if cs ≠ [] ∧ cs.all isDigitChar then
    some (cs.foldl (fun acc c => 10 * acc + charDigitVal c) 0)
  else none

/-- Parse an optionally minus-signed decimal integer. -/
def parseIntChars (cs : List Char) : Option ℤ :=
  match cs with
  | [] => none
  | c :: rest =>
      if c = '-' then (parseNatChars rest).map (fun m => -(m : ℤ))
      else (parseNatChars (c :: rest)).map (fun m => (m : ℤ))

/-- np.loadtxt line parse at dtype np.int16: a decimal integer in the
signed 16-bit range, anything else is a parse failure. -/
def parseLine (s : String) : Option ℤ :=
  (parseIntChars s.data).bind
    (fun n => if -(2 ^ 15) ≤ n ∧ n < 2 ^ 15 then some n else none)

/-- Parse every line of a text file, failing if any line fails. -/
def parseLines (lines : List String) : Option (List ℤ) :=
  lines.mapM parseLine

/-- Contents of a file on disk: a wav file written by wavfile.write, or a
text file as a list of lines. -/
inductive FileData where
  | wavFile (rate : ℕ) (samples : List ℤ)
  | txtFile (lines : List String)
  deriving Repr

/-- The file system: a partial map from file name to file data. -/
def FS : Type := String → Option FileData

/-- Write one file into the file system. -/
def fsWrite (fs : FS) (name : String) (d : FileData) : FS :=
  fun n => if n = name then some d else fs n

/-- The file_type.upper() call of save_wave: basic-latin uppercasing,
character by character. -/
def strUpper (s : String) : String :=
  String.mk (s.data.map Char.toUpper)

/-- save_wave: no-op with a message when no wave is held; wavfile.write when
the file type uppercases to WAV; otherwise np.savetxt with one decimal
integer per line.  Returns the updated file system and the printed lines. -/
def save_wave (f : SoundWaveFactory) (fs : FS) (file_name : String)
    (file_type : String) : FS × List String :=
  match f.sound_wave with
  | none => (fs, ["No sound wave to save."])
  | some sw =>
      if strUpper file_type = "WAV" then
        (fsWrite fs file_name (FileData.wavFile SAMPLING_RATE sw),
         ["Wave saved as WAV file: " ++ file_name])
      else
        (fsWrite fs file_name
           (FileData.txtFile (sw.map (fun s => String.mk (renderInt s)))),
         ["Wave saved as text file: " ++ file_name])

/-- read_wave_from_txt: raises FileNotFoundError when the path is absent;
otherwise tries np.loadtxt, storing the samples on success and swallowing
the exception with a printed report on failure (a wav file body is not
parseable text, so it lands in the failure branch).  Returns the post-state,
the printed lines and the exception outcome. -/
def read_wave_from_txt (f : SoundWaveFactory) (fs : FS) (file_name : String) :
    SoundWaveFactory × List String × Except WaveError Unit :=
  match fs file_name with
  | none => (f, [], Except.error (WaveError.fileNotFound file_name))
  | some (FileData.wavFile _ _) =>
      (f, ["Error loading wave from " ++ file_name], Except.ok ())
  | some (FileData.txtFile lines) =>
      match parseLines lines with
      | some sw =>
          (⟨f.common_timeline, some sw, f.note⟩,
           ["Successfully loaded wave from " ++ file_name], Except.ok ())
      | none =>
          (f, ["Error loading wave from " ++ file_name], Except.ok ())

/-- An argument of normalize_sound_waves: a raw sample sequence or a
factory instance (whose sound_wave attribute is read). -/
inductive WaveSource where
  | raw (samples : List ℤ)
  | fact (f : SoundWaveFactory)

/-- The sample sequence a wave source holds, when it holds one. -/
def sourceWave : WaveSource → Option (List ℤ)
  | WaveSource.raw s => some s
  | WaveSource.fact f => f.sound_wave

/-- Python runtime errors normalize_sound_waves can raise: len(None) in the
min computation is a TypeError, np.max over an empty array is a ValueError. -/
inductive PyError where
  | typeErrorNoneLen
  | valueErrorEmptyMax
  deriving Repr, DecidableEq

/-- len() of the item a wave source holds, as evaluated inside the min
generator of normalize_sound_waves: len(None) raises a TypeError. -/
def waveLen (w : WaveSource) : Except PyError ℕ :=
  match sourceWave w with
  | some sw => Except.ok sw.length
  | none => Except.error PyError.typeErrorNoneLen

/-- The rescaling of one sample by MAX_AMPLITUDE over the peak, followed by
the float-to-int16 truncation (without the wrap, which is the identity for
every value this map produces). -/
def rescaleSample (peak : ℕ) (s : ℤ) : ℤ :=
  truncQ ((s : ℚ) * ((MAX_AMPLITUDE : ℚ) / (peak : ℚ)))

/-- The loop body of normalize_sound_waves for one wave, given the shared
minimum length: trim, take the peak of the trimmed wave, rescale by
MAX_AMPLITUDE over the peak and quantize when the peak is positive, return
the trimmed wave unchanged when the peak is zero. -/
def normalizeOne (min_length : ℕ) (sound_wave : List ℤ) :
    Except PyError (List ℤ) :=
  match ((sound_wave.take min_length).map Int.natAbs).max? with
  | none => Except.error PyError.valueErrorEmptyMax
  | some max_amplitude =>
      if 0 < max_amplitude then
        Except.ok ((sound_wave.take min_length).map
          (fun s : ℤ => quantInt16 ((s : ℚ) * ((MAX_AMPLITUDE : ℚ) / (max_amplitude : ℚ)))))
      else
        Except.ok (sound_wave.take min_length)

/-- normalize_sound_waves: with no arguments, print and return None; else
compute the minimum length over all waves (len(None) raising on a factory
holding no wave), then trim and rescale each wave.  Returns the printed
lines and the outcome. -/
def normalize_sound_waves (waves : List WaveSource) :
    List String × Except PyError (Option (List (List ℤ))) :=
  if waves.isEmpty then
    (["No waves provided."], Except.ok none)
  else
    match waves.mapM waveLen with
    | Except.error e => ([], Except.error e)
    | Except.ok lens =>
        let min_length := lens.min?.getD 0
        match waves.mapM
            (fun w => normalizeOne min_length ((sourceWave w).getD [])) with
        | Except.error e => ([], Except.error e)
        | Except.ok outs => ([], Except.ok (some outs))

/-- The minimum sample count over a list of wave sources that all hold a
wave: the min_length of normalize_sound_waves. -/
def minLenWs (ws : List WaveSource) : ℕ :=
  ((ws.map (fun w => ((sourceWave w).getD []).length)).min?).getD 0

/-! Quantization lemmas. -/

theorem MAX_AMPLITUDE_eq : MAX_AMPLITUDE = 8192 := by
  norm_num [MAX_AMPLITUDE]

theorem truncQ_intCast (n : ℤ) : truncQ (n : ℚ) = n := by
  unfold truncQ
  split <;> simp

theorem natAbs_truncQ_le {q : ℚ} {B : ℕ} (h : |q| ≤ (B : ℚ)) :
    (truncQ q).natAbs ≤ B := by
  obtain ⟨h1, h2⟩ := abs_le.mp h
  unfold truncQ
  split
  case isTrue hq =>
    have hf1 : 0 ≤ ⌊q⌋ := Int.floor_nonneg.mpr hq
    have hf2 : ⌊q⌋ ≤ (B : ℤ) := by
      have := Int.floor_le_floor h2
      simpa using this
    omega
  case isFalse hq =>
    push_neg at hq
    have hc1 : ⌈q⌉ ≤ 0 := Int.ceil_le.mpr (by exact_mod_cast hq.le)
    have hc2 : -(B : ℤ) ≤ ⌈q⌉ := by
      have h3 : ((-(B : ℤ) : ℤ) : ℚ) ≤ q := by push_cast; exact h1
      have := Int.ceil_le_ceil h3
      rwa [Int.ceil_intCast] at this
    omega

theorem toInt16_eq_self {n : ℤ} (h1 : -(2 ^ 15) ≤ n) (h2 : n < 2 ^ 15) :
    toInt16 n = n := by
  unfold toInt16
  rw [Int.emod_eq_of_lt (by omega) (by omega)]
  omega

theorem quantInt16_eq_truncQ {q : ℚ} (h : |q| ≤ (MAX_AMPLITUDE : ℚ)) :
    quantInt16 q = truncQ q := by
  have hb : (truncQ q).natAbs ≤ 8192 := by
    apply natAbs_truncQ_le (B := 8192)
    simpa [MAX_AMPLITUDE_eq] using h
  unfold quantInt16
  apply toInt16_eq_self <;> omega

theorem natAbs_quantInt16_le {q : ℚ} (h : |q| ≤ (MAX_AMPLITUDE : ℚ)) :
    (quantInt16 q).natAbs ≤ 8192 := by
  rw [quantInt16_eq_truncQ h]
  apply natAbs_truncQ_le (B := 8192)
  simpa [MAX_AMPLITUDE_eq] using h

/-! Decimal serialization round trip. -/

theorem charDigitVal_digitChar {d : ℕ} (h : d < 10) :
    charDigitVal (digitChar d) = d := by
  interval_cases d <;> rfl

theorem isDigitChar_digitChar {d : ℕ} (h : d < 10) :
    isDigitChar (digitChar d) = true := by
  interval_cases d <;> rfl

theorem digitChar_ne_minus {d : ℕ} (h : d < 10) : digitChar d ≠ '-' := by
  interval_cases d <;> decide

theorem foldr_eq_ofDigits (L : List ℕ) :
    L.foldr (fun d acc => 10 * acc + d) 0 = Nat.ofDigits 10 L := by
  induction L with
  | nil => rfl
  | cons d t ih => simp [Nat.ofDigits_cons, ih]; omega

theorem parseNatChars_renderNat (n : ℕ) :
    parseNatChars (renderNat n) = some n := by
  by_cases h0 : n = 0
  · subst h0; decide
  · have hdig : ∀ d ∈ Nat.digits 10 n, d < 10 :=
      fun d hd => Nat.digits_lt_base (by norm_num) hd
    have hne : Nat.digits 10 n ≠ [] := Nat.digits_ne_nil_iff_ne_zero.mpr h0
    unfold renderNat
    rw [if_neg h0]
    unfold parseNatChars
    rw [if_pos ?side]
    case side =>
      constructor
      · simp [hne]
      · rw [List.all_eq_true]
        intro c hc
        obtain ⟨d, hd, rfl⟩ := List.mem_map.mp hc
        exact isDigitChar_digitChar (hdig d (List.mem_reverse.mp hd))
    congr 1
    rw [List.foldl_map]
    rw [List.foldl_ext (g := fun acc d => 10 * acc + d)]
    · rw [List.foldl_reverse, foldr_eq_ofDigits, Nat.ofDigits_digits]
    · intro acc d hd
      rw [charDigitVal_digitChar (hdig d (List.mem_reverse.mp hd))]

theorem renderNat_head (m : ℕ) :
    ∃ d rest, renderNat m = digitChar d :: rest ∧ d < 10 := by
  by_cases h0 : m = 0
  · subst h0; exact ⟨0, [], rfl, by norm_num⟩
  · have hne : (Nat.digits 10 m).reverse ≠ [] := by
      simp [Nat.digits_ne_nil_iff_ne_zero.mpr h0]
    obtain ⟨d, L, hdl⟩ := List.exists_cons_of_ne_nil hne
    refine ⟨d, L.map digitChar, ?_, ?_⟩
    · unfold renderNat
      rw [if_neg h0, hdl]
      rfl
    · exact Nat.digits_lt_base (by norm_num)
        (List.mem_reverse.mp (hdl ▸ List.mem_cons_self d L))

theorem parseIntChars_minus (rest : List Char) :
    parseIntChars ('-' :: rest) = (parseNatChars rest).map (fun m => -(m : ℤ)) := by
  simp [parseIntChars]

theorem parseIntChars_cons_ne {c : Char} (h : c ≠ '-') (rest : List Char) :
    parseIntChars (c :: rest) =
      (parseNatChars (c :: rest)).map (fun m => (m : ℤ)) := by
  simp only [parseIntChars]
  rw [if_neg h]

theorem parseIntChars_renderInt (n : ℤ) :
    parseIntChars (renderInt n) = some n := by
  by_cases hneg : n < 0
  · unfold renderInt
    rw [if_pos hneg, parseIntChars_minus, parseNatChars_renderNat]
    have habs : (n.natAbs : ℤ) = -n := by omega
    simp [habs]
  · unfold renderInt
    rw [if_neg hneg]
    obtain ⟨d, rest, hshape, hd⟩ := renderNat_head n.toNat
    rw [hshape, parseIntChars_cons_ne (digitChar_ne_minus hd), ← hshape,
      parseNatChars_renderNat]
    simp
    omega

theorem parseLine_renderInt {n : ℤ} (h1 : -(2 ^ 15) ≤ n) (h2 : n < 2 ^ 15) :
    parseLine (String.mk (renderInt n)) = some n := by
  unfold parseLine
  have hdata : (String.mk (renderInt n)).data = renderInt n := rfl
  rw [hdata, parseIntChars_renderInt]
  simp [Option.bind]
  omega

theorem parseLines_renderInt (sw : List ℤ)
    (h : ∀ s ∈ sw, -(2 ^ 15) ≤ s ∧ s < 2 ^ 15) :
    parseLines (sw.map (fun s => String.mk (renderInt s))) = some sw := by
  induction sw with
  | nil => rfl
  | cons s t ih =>
    have hs := h s (List.mem_cons_self s t)
    have ht := ih (fun x hx => h x (List.mem_cons_of_mem s hx))
    unfold parseLines at ht ⊢
    rw [List.map_cons, List.mapM_cons, parseLine_renderInt hs.1 hs.2, ht]
    rfl

/-! mapM over Except. -/

theorem exceptMapM_ok_of_forall {α β ε : Type} (f : α → Except ε β)
    (P : α → β → Prop) (l : List α)
    (h : ∀ a ∈ l, ∃ b, f a = Except.ok b ∧ P a b) :
    ∃ rs, l.mapM f = Except.ok rs ∧
      List.Forall₂ (fun a b => f a = Except.ok b ∧ P a b) l rs := by
  induction l with
  | nil => exact ⟨[], rfl, List.Forall₂.nil⟩
  | cons a t ih =>
    obtain ⟨b, hb, hp⟩ := h a (List.mem_cons_self a t)
    obtain ⟨rs, hrs, hf⟩ := ih (fun x hx => h x (List.mem_cons_of_mem a hx))
    refine ⟨b :: rs, ?_, List.Forall₂.cons ⟨hb, hp⟩ hf⟩
    rw [List.mapM_cons]
    simp only [hb, hrs]
    rfl

theorem mapM_waveLen_error {ws : List WaveSource}
    (h : ∃ w ∈ ws, sourceWave w = none) :
    ws.mapM waveLen = Except.error PyError.typeErrorNoneLen := by
  induction ws with
  | nil => simp at h
  | cons a t ih =>
    rw [List.mapM_cons]
    obtain ⟨w, hw, hnone⟩ := h
    rcases List.mem_cons.mp hw with rfl | hmem
    · have ha : waveLen w = Except.error PyError.typeErrorNoneLen := by
        unfold waveLen
        rw [hnone]
      simp only [ha]
      rfl
    · cases hfa : waveLen a with
      | error e =>
        have he : e = PyError.typeErrorNoneLen := by
          unfold waveLen at hfa
          split at hfa
          · cases hfa
          · injection hfa with h
            exact h.symm
        subst he
        rfl
      | ok b =>
        simp only [ih ⟨w, hmem, hnone⟩]
        rfl

/-! normalizeOne lemmas. -/

theorem abs_le_of_natAbs_le {s : ℤ} {p : ℕ} (hs : s.natAbs ≤ p) :
    |(s : ℚ)| ≤ (p : ℚ) := by
  rw [← Int.cast_abs, Int.abs_eq_natAbs]
  exact_mod_cast hs

theorem abs_rescale_le {peak : ℕ} (hpos : 0 < peak) {s : ℤ}
    (hs : s.natAbs ≤ peak) :
    |(s : ℚ) * ((MAX_AMPLITUDE : ℚ) / (peak : ℚ))| ≤ (MAX_AMPLITUDE : ℚ) := by
  have hp : (0 : ℚ) < (peak : ℚ) := by exact_mod_cast hpos
  have hM : (0 : ℚ) ≤ (MAX_AMPLITUDE : ℚ) := by norm_num [MAX_AMPLITUDE]
  rw [abs_mul, abs_of_nonneg (by positivity : (0:ℚ) ≤ (MAX_AMPLITUDE : ℚ) / (peak : ℚ))]
  calc |(s : ℚ)| * ((MAX_AMPLITUDE : ℚ) / (peak : ℚ))
      ≤ (peak : ℚ) * ((MAX_AMPLITUDE : ℚ) / (peak : ℚ)) := by
        apply mul_le_mul_of_nonneg_right (abs_le_of_natAbs_le hs)
        positivity
    _ = (MAX_AMPLITUDE : ℚ) := by
        field_simp

theorem rescaleSample_natAbs_le {peak : ℕ} (hpos : 0 < peak) {s : ℤ}
    (hs : s.natAbs ≤ peak) : (rescaleSample peak s).natAbs ≤ 8192 := by
  unfold rescaleSample
  apply natAbs_truncQ_le (B := 8192)
  have := abs_rescale_le hpos hs
  simpa [MAX_AMPLITUDE_eq] using this

theorem rescaleSample_at_peak {peak : ℕ} (hpos : 0 < peak) {s : ℤ}
    (hs : s.natAbs = peak) : (rescaleSample peak s).natAbs = 8192 := by
  have hp : ((peak : ℤ) : ℚ) ≠ 0 := by
    exact_mod_cast (by exact_mod_cast hpos.ne' : ((peak : ℤ) : ℚ) ≠ 0)
  have hcases : s = (peak : ℤ) ∨ s = -(peak : ℤ) := by omega
  unfold rescaleSample
  rcases hcases with rfl | rfl
  · have harg : ((peak : ℤ) : ℚ) * ((MAX_AMPLITUDE : ℚ) / ((peak : ℕ) : ℚ)) =
        ((MAX_AMPLITUDE : ℤ) : ℚ) := by
      push_cast
      field_simp
    rw [harg, truncQ_intCast]
    simp [MAX_AMPLITUDE_eq]
  · have harg : ((-(peak : ℤ) : ℤ) : ℚ) * ((MAX_AMPLITUDE : ℚ) / ((peak : ℕ) : ℚ)) =
        ((-(MAX_AMPLITUDE : ℤ) : ℤ) : ℚ) := by
      push_cast
      field_simp
      ring
    rw [harg, truncQ_intCast]
    simp [MAX_AMPLITUDE_eq]

theorem normalizeOne_peak_pos {ml : ℕ} {sw : List ℤ} {peak : ℕ}
    (hpeak : ((sw.take ml).map Int.natAbs).max? = some peak) (hpos : 0 < peak) :
    normalizeOne ml sw = Except.ok ((sw.take ml).map (rescaleSample peak)) := by
  obtain ⟨hmem, hall⟩ := List.max?_eq_some_iff'.mp hpeak
  unfold normalizeOne
  split
  · rename_i heq
    rw [hpeak] at heq
    cases heq
  · rename_i m heq
    rw [hpeak] at heq
    injection heq with heq'
    subst heq'
    rw [if_pos hpos]
    apply congrArg
    apply List.map_congr_left
    intro s hs
    have hsle : s.natAbs ≤ peak := hall _ (List.mem_map_of_mem _ hs)
    rw [quantInt16_eq_truncQ (abs_rescale_le hpos hsle)]
    rfl

theorem normalizeOne_peak_zero {ml : ℕ} {sw : List ℤ}
    (hpeak : ((sw.take ml).map Int.natAbs).max? = some 0) :
    normalizeOne ml sw = Except.ok (sw.take ml) := by
  unfold normalizeOne
  split
  · rename_i heq
    rw [hpeak] at heq
    cases heq
  · rename_i m heq
    rw [hpeak] at heq
    injection heq with heq'
    subst heq'
    rw [if_neg (lt_irrefl 0)]

theorem normalizeOne_ok_of_ne_nil {ml : ℕ} {sw : List ℤ}
    (h : sw.take ml ≠ []) :
    ∃ out, normalizeOne ml sw = Except.ok out ∧
      out.length = (sw.take ml).length := by
  cases hmax : ((sw.take ml).map Int.natAbs).max? with
  | none =>
    exact absurd (List.map_eq_nil_iff.mp (List.max?_eq_none_iff.mp hmax)) h
  | some m =>
    by_cases hm : 0 < m
    · exact ⟨_, normalizeOne_peak_pos hmax hm, by simp⟩
    · have hm0 : m = 0 := by omega
      subst hm0
      exact ⟨_, normalizeOne_peak_zero hmax, rfl⟩

theorem rescaled_peak {ml : ℕ} {sw : List ℤ} {peak : ℕ}
    (hpeak : ((sw.take ml).map Int.natAbs).max? = some peak) (hpos : 0 < peak) :
    (((sw.take ml).map (rescaleSample peak)).map Int.natAbs).max? = some 8192 := by
  obtain ⟨hmem, hall⟩ := List.max?_eq_some_iff'.mp hpeak
  obtain ⟨s0, hs0mem, hs0⟩ := List.mem_map.mp hmem
  apply List.max?_eq_some_iff'.mpr
  constructor
  · apply List.mem_map.mpr
    exact ⟨rescaleSample peak s0, List.mem_map_of_mem _ hs0mem,
      rescaleSample_at_peak hpos hs0⟩
  · intro b hb
    obtain ⟨y, hy, rfl⟩ := List.mem_map.mp hb
    obtain ⟨s, hsmem, rfl⟩ := List.mem_map.mp hy
    exact rescaleSample_natAbs_le hpos (hall _ (List.mem_map_of_mem _ hsmem))

/-- How normalize_sound_waves reduces when its argument list is non-empty
and both mapM passes succeed. -/
theorem normalize_ok_shape (ws : List WaveSource) (hne : ws.isEmpty = false)
    (lens : List ℕ) (hlens : ws.mapM waveLen = Except.ok lens)
    (outs : List (List ℤ))
    (houts : ws.mapM
        (fun w => normalizeOne (lens.min?.getD 0) ((sourceWave w).getD [])) =
      Except.ok outs) :
    (normalize_sound_waves ws).2 = Except.ok (some outs) := by
  unfold normalize_sound_waves
  split
  · rename_i h
    rw [hne] at h
    cases h
  · split
    · rename_i e heq
      rw [hlens] at heq
      cases heq
    · rename_i lens1 heq
      rw [hlens] at heq
      injection heq with heq1
      subst heq1
      dsimp only
      split
      · rename_i e heq2
        rw [houts] at heq2
        cases heq2
      · rename_i outs1 heq2
        rw [houts] at heq2
        injection heq2 with heq3
        subst heq3
        rfl

/-- The second components of the phase-one Forall₂ are exactly the lengths
of the held waves. -/
theorem forall₂_waveLen_map {l : List WaveSource} {rs : List ℕ}
    (h : List.Forall₂ (fun a b => waveLen a = Except.ok b ∧
      b = ((sourceWave a).getD []).length) l rs) :
    rs = l.map (fun w => ((sourceWave w).getD []).length) := by
  induction h with
  | nil => rfl
  | cons hh _ ih => simp [ih, hh.2]

/-! Claims. -/

/-- C2: frequency resolution is total on the NOTES key set, maps a4 to 440.0
and c0 to 32.70320, and fails with the unknown-note error on every key absent
from the table. -/
theorem claim_C2 :
    resolve_frequency "a4" = Except.ok 440 ∧
    resolve_frequency "c0" = Except.ok 32.70320 ∧
    (∀ p ∈ NOTES, ∃ q, resolve_frequency p.1 = Except.ok q) ∧
    (∀ note, lookupNote note = none →
      resolve_frequency note = Except.error (WaveError.unknownNote note)) := by
  refine ⟨?_, ?_, ?_, ?_⟩
  · have h : lookupNote "a4" = some (440.0000 : ℚ) := by rfl
    have h2 : (440.0000 : ℚ) = 440 := by norm_num
    rw [h2] at h
    unfold resolve_frequency
    rw [h]
  · have h : lookupNote "c0" = some (32.70320 : ℚ) := by rfl
    unfold resolve_frequency
    rw [h]
  · intro p hp
    unfold resolve_frequency lookupNote
    have hfind : (NOTES.find? (fun q => q.1 == p.1)).isSome := by
      apply List.find?_isSome.mpr
      exact ⟨p, hp, by exact beq_self_eq_true p.1⟩
    obtain ⟨pr, hpr⟩ := Option.isSome_iff_exists.mp hfind
    rw [hpr]
    exact ⟨pr.2, rfl⟩
  · intro note h
    unfold resolve_frequency
    rw [h]

/-- C2 witness: the absent key z9 fails with the unknown-note error. -/
theorem claim_C2_witness :
    resolve_frequency "z9" = Except.error (WaveError.unknownNote "z9") :=
  claim_C2.2.2.2 "z9" (by decide)

/-- C9: normalize with an empty argument list reports that no waves were
provided and returns None, raising no error. -/
theorem claim_C9 :
    normalize_sound_waves [] = (["No waves provided."], Except.ok none) := rfl

/-- C6 counterexample: a failed create_note call does change the stored note
identifier, so the claim that the whole state is unchanged fails on a fresh
factory asked for the unknown note z9. -/
theorem claim_C6_counterexample :
    SoundWaveFactory.init.note = none ∧
    (create_note (fun _ => 0) SoundWaveFactory.init "z9" none none).1.note =
      some "z9" ∧
    (create_note (fun _ => 0) SoundWaveFactory.init "z9" none none).2 =
      Except.error (WaveError.unknownNote "z9") := by
  exact ⟨rfl, rfl, rfl⟩

/-- C6 (amended): create_note on an unknown note propagates the unknown-note
error and leaves the stored sample sequence unchanged, but overwrites the
stored note identifier with the requested note before failing. -/
theorem claim_C6 (sinF : ℚ → ℚ) (f : SoundWaveFactory) (note : String)
    (name : Option String) (timeline : Option (List ℚ))
    (h : lookupNote note = none) :
    create_note sinF f note name timeline =
      (⟨f.common_timeline, f.sound_wave, some note⟩,
        Except.error (WaveError.unknownNote note)) := by
  simp only [create_note, get_soundwave, h]

/-- C6 witness: the amended statement at a concrete factory and note. -/
theorem claim_C6_witness :
    create_note (fun _ => 0) (SoundWaveFactory.mk [] none none) "z9" none none =
      (SoundWaveFactory.mk [] none (some "z9"),
        Except.error (WaveError.unknownNote "z9")) :=
  claim_C6 (fun _ => 0) (SoundWaveFactory.mk [] none none) "z9" none none rfl

/-- C8: for a note present in the table, create_note writes the audio file
named from the note with every hash character replaced by s when no name is
given, and name.wav when a name is given. -/
theorem claim_C8 (sinF : ℚ → ℚ) (f : SoundWaveFactory) (note : String)
    (hnote : (lookupNote note).isSome) :
    (∃ sw, (create_note sinF f note none none).2 =
        Except.ok (sw, replaceHash (note ++ "_sin.wav"))) ∧
    (∀ nm, ∃ sw, (create_note sinF f note (some nm) none).2 =
        Except.ok (sw, nm ++ ".wav")) := by
  obtain ⟨fr, hfr⟩ := Option.isSome_iff_exists.mp hnote
  constructor
  · exact ⟨_, by simp only [create_note, get_soundwave, hfr]; rfl⟩
  · intro nm
    exact ⟨_, by simp only [create_note, get_soundwave, hfr]; rfl⟩

/-- C8 witness: note c#4 goes to cs4_sin.wav by default and to lead.wav when
the name lead is given. -/
theorem claim_C8_witness :
    (∃ sw, (create_note (fun _ => 0) (SoundWaveFactory.mk [] none none)
        "c#4" none none).2 = Except.ok (sw, "cs4_sin.wav")) ∧
    (∃ sw, (create_note (fun _ => 0) (SoundWaveFactory.mk [] none none)
        "c#4" (some "lead") none).2 = Except.ok (sw, "lead.wav")) := by
  have h := claim_C8 (fun _ => 0) (SoundWaveFactory.mk [] none none) "c#4"
    (by decide)
  exact ⟨h.1, h.2 "lead"⟩

/-- C10: normalize with a factory input that holds no wave raises the
TypeError from taking the length of None while computing the minimum
length. -/
theorem claim_C10 (ws : List WaveSource) (f : SoundWaveFactory)
    (hmem : WaveSource.fact f ∈ ws) (hnone : f.sound_wave = none) :
    (normalize_sound_waves ws).2 = Except.error PyError.typeErrorNoneLen := by
  cases ws with
  | nil => cases hmem
  | cons a t =>
    unfold normalize_sound_waves
    rw [mapM_waveLen_error ⟨WaveSource.fact f, hmem, hnone⟩]
    rfl

/-- C10 witness: a fresh factory passed to normalize. -/
theorem claim_C10_witness :
    (normalize_sound_waves
      [WaveSource.fact (SoundWaveFactory.mk [] none none)]).2 =
      Except.error PyError.typeErrorNoneLen :=
  claim_C10 [WaveSource.fact (SoundWaveFactory.mk [] none none)]
    (SoundWaveFactory.mk [] none none) (List.mem_singleton.mpr rfl) rfl

/-- C7: loading a missing path raises FileNotFoundError; loading an existing
but unparseable text file reports the error, swallows it, and leaves the
factory state unchanged. -/
theorem claim_C7 (f : SoundWaveFactory) (fs : FS) (name : String) :
    (fs name = none →
      read_wave_from_txt f fs name =
        (f, [], Except.error (WaveError.fileNotFound name))) ∧
    (∀ lines, fs name = some (FileData.txtFile lines) →
      parseLines lines = none →
      read_wave_from_txt f fs name =
        (f, ["Error loading wave from " ++ name], Except.ok ())) := by
  constructor
  · intro h
    simp only [read_wave_from_txt, h]
  · intro lines h hp
    simp only [read_wave_from_txt, h, hp]

/-- C7 witness: a missing path and an existing non-numeric text file. -/
theorem claim_C7_witness :
    read_wave_from_txt (SoundWaveFactory.mk [] none none) (fun _ => none)
        "a.txt" =
      (SoundWaveFactory.mk [] none none, [],
        Except.error (WaveError.fileNotFound "a.txt")) ∧
    read_wave_from_txt (SoundWaveFactory.mk [] none none)
        (fun n => if n = "b.txt" then some (FileData.txtFile ["abc"]) else none)
        "b.txt" =
      (SoundWaveFactory.mk [] none none,
        ["Error loading wave from " ++ "b.txt"], Except.ok ()) :=
  ⟨(claim_C7 (SoundWaveFactory.mk [] none none) (fun _ => none) "a.txt").1 rfl,
   (claim_C7 (SoundWaveFactory.mk [] none none)
      (fun n => if n = "b.txt" then some (FileData.txtFile ["abc"]) else none)
      "b.txt").2 ["abc"] rfl (by decide)⟩

/-- C1: for every note present in the table, create_note on the default
time base returns SAMPLING_RATE times DURATION_SECONDS = 220500 samples,
each bounded by MAX_AMPLITUDE in absolute value. -/
theorem claim_C1 (sinF : ℚ → ℚ) (hsin : ∀ x, |sinF x| ≤ 1)
    (note : String) (hnote : (lookupNote note).isSome) :
    ∃ st sw nm,
      create_note sinF SoundWaveFactory.init note none none =
        (st, Except.ok (sw, nm)) ∧
      sw.length = SAMPLING_RATE * DURATION_SECONDS ∧
      sw.length = 220500 ∧
      ∀ s ∈ sw, |s| ≤ MAX_AMPLITUDE := by
  obtain ⟨fr, hfr⟩ := Option.isSome_iff_exists.mp hnote
  refine ⟨⟨linspaceTimeline,
      some ((get_normed_sin sinF linspaceTimeline fr).map quantInt16),
      some note⟩,
    (get_normed_sin sinF linspaceTimeline fr).map quantInt16,
    replaceHash (note ++ "_sin.wav"), ?_, ?_, ?_, ?_⟩
  · simp only [create_note, get_soundwave, hfr, Option.getD_none,
      SoundWaveFactory.init]
  · simp [get_normed_sin, linspaceTimeline, SOUND_ARRAY_LEN]
  · simp [get_normed_sin, linspaceTimeline, SOUND_ARRAY_LEN,
      SAMPLING_RATE, DURATION_SECONDS]
  · intro s hs
    simp only [get_normed_sin, List.map_map, List.mem_map] at hs
    obtain ⟨t, ht, rfl⟩ := hs
    have hb : |(MAX_AMPLITUDE : ℚ) * sinF (2 * np_pi * fr * t)| ≤
        (MAX_AMPLITUDE : ℚ) := by
      rw [abs_mul]
      calc |(MAX_AMPLITUDE : ℚ)| * |sinF (2 * np_pi * fr * t)|
          ≤ |(MAX_AMPLITUDE : ℚ)| * 1 :=
            mul_le_mul_of_nonneg_left (hsin _) (abs_nonneg _)
        _ = (MAX_AMPLITUDE : ℚ) := by
            rw [mul_one, abs_of_nonneg (by norm_num [MAX_AMPLITUDE])]
    have hq := natAbs_quantInt16_le hb
    show |quantInt16 ((MAX_AMPLITUDE : ℚ) * sinF (2 * np_pi * fr * t))| ≤
      MAX_AMPLITUDE
    rw [Int.abs_eq_natAbs, MAX_AMPLITUDE_eq]
    exact_mod_cast hq

/-- C1 witness: the theorem applied at note a4 and a concrete bounded sine
stand-in. -/
theorem claim_C1_witness :
    ∃ st sw nm,
      create_note (fun _ => 0) SoundWaveFactory.init "a4" none none =
        (st, Except.ok (sw, nm)) ∧
      sw.length = SAMPLING_RATE * DURATION_SECONDS ∧
      sw.length = 220500 ∧
      ∀ s ∈ sw, |s| ≤ MAX_AMPLITUDE :=
  claim_C1 (fun _ => 0) (fun x => by norm_num) "a4" (by decide)

/-- C4: inside normalize, a trimmed wave whose peak P is positive is mapped
sample-wise through multiplication by MAX_AMPLITUDE over P and truncation
toward zero, and the result peaks at exactly MAX_AMPLITUDE; a trimmed wave
whose peak is zero is passed through unchanged and is all zero. -/
theorem claim_C4 (ml : ℕ) (sw : List ℤ) (peak : ℕ)
    (hpeak : ((sw.take ml).map Int.natAbs).max? = some peak) :
    (0 < peak →
      normalizeOne ml sw =
        Except.ok ((sw.take ml).map (rescaleSample peak)) ∧
      (((sw.take ml).map (rescaleSample peak)).map Int.natAbs).max? =
        some MAX_AMPLITUDE.toNat) ∧
    (peak = 0 →
      normalizeOne ml sw = Except.ok (sw.take ml) ∧
      ∀ s ∈ sw.take ml, s = 0) := by
  constructor
  · intro hpos
    refine ⟨normalizeOne_peak_pos hpeak hpos, ?_⟩
    have hM : MAX_AMPLITUDE.toNat = 8192 := by
      rw [MAX_AMPLITUDE_eq]
      rfl
    rw [hM]
    exact rescaled_peak hpeak hpos
  · intro h0
    subst h0
    refine ⟨normalizeOne_peak_zero hpeak, ?_⟩
    intro s hs
    have := (List.max?_eq_some_iff'.mp hpeak).2 _ (List.mem_map_of_mem _ hs)
    omega

/-- C4 witness: a positive-peak wave and an all-zero wave. -/
theorem claim_C4_witness :
    (normalizeOne 3 [5, -2, 1] =
        Except.ok (([5, -2, 1].take 3).map (rescaleSample 5)) ∧
      ((([5, -2, 1].take 3).map (rescaleSample 5)).map Int.natAbs).max? =
        some MAX_AMPLITUDE.toNat) ∧
    (normalizeOne 2 [0, 0] = Except.ok (([0, 0] : List ℤ).take 2) ∧
      ∀ s ∈ ([0, 0] : List ℤ).take 2, s = 0) := by
  constructor
  · exact (claim_C4 3 [5, -2, 1] 5 (by decide)).1 (by decide)
  · exact (claim_C4 2 [0, 0] 0 (by decide)).2 rfl

/-- C5: saving the held wave in the text format and loading the same path
back restores the sample sequence elementwise; the note identifier is not
restored by the load. -/
theorem claim_C5 (f : SoundWaveFactory) (fs : FS) (path : String)
    (sw : List ℤ) (hw : f.sound_wave = some sw)
    (hrange : ∀ s ∈ sw, -(2 ^ 15) ≤ s ∧ s < 2 ^ 15) :
    read_wave_from_txt f (save_wave f fs path "txt").1 path =
      (⟨f.common_timeline, some sw, f.note⟩,
       ["Successfully loaded wave from " ++ path], Except.ok ()) := by
  have hsave : (save_wave f fs path "txt").1 =
      fsWrite fs path
        (FileData.txtFile (sw.map (fun s => String.mk (renderInt s)))) := by
    simp only [save_wave, hw]
    rw [if_neg (by decide)]
  have hfs : fsWrite fs path
      (FileData.txtFile (sw.map (fun s => String.mk (renderInt s)))) path =
      some (FileData.txtFile (sw.map (fun s => String.mk (renderInt s)))) := by
    unfold fsWrite
    rw [if_pos rfl]
  rw [hsave]
  simp only [read_wave_from_txt, hfs, parseLines_renderInt sw hrange]

/-- C5 witness: a concrete three-sample wave round-trips through the text
file and the note identifier a4 is untouched. -/
theorem claim_C5_witness :
    read_wave_from_txt (SoundWaveFactory.mk [] (some [1, -2, 0]) (some "a4"))
        (save_wave (SoundWaveFactory.mk [] (some [1, -2, 0]) (some "a4"))
          (fun _ => none) "w.txt" "txt").1 "w.txt" =
      (SoundWaveFactory.mk [] (some [1, -2, 0]) (some "a4"),
       ["Successfully loaded wave from " ++ "w.txt"], Except.ok ()) :=
  claim_C5 (SoundWaveFactory.mk [] (some [1, -2, 0]) (some "a4"))
    (fun _ => none) "w.txt" [1, -2, 0] rfl (by decide)

/-- C3 counterexample: a non-empty list of wave sources containing a raw
wave of length zero makes normalize raise the ValueError of taking the
maximum of an empty array, instead of returning a list. -/
theorem claim_C3_counterexample :
    (normalize_sound_waves [WaveSource.raw []]).2 =
      Except.error PyError.valueErrorEmptyMax := rfl

/-- C3 (amended): for a non-empty list of wave sources, each holding a wave
with at least one sample, normalize succeeds and returns one output per
input, in input order; each output arises from its own input by truncation
to the minimum input length followed by the rescale step, and has exactly
the minimum input length. -/
theorem claim_C3 (ws : List WaveSource) (hne : ws ≠ [])
    (hhold : ∀ w ∈ ws, (sourceWave w).isSome)
    (hnn : ∀ w ∈ ws, (sourceWave w).getD [] ≠ []) :
    ∃ outs, (normalize_sound_waves ws).2 = Except.ok (some outs) ∧
      outs.length = ws.length ∧
      List.Forall₂ (fun w out =>
        normalizeOne (minLenWs ws) ((sourceWave w).getD []) = Except.ok out ∧
        out.length = minLenWs ws) ws outs := by
  have h1 : ∀ w ∈ ws, ∃ n, waveLen w = Except.ok n ∧
      n = ((sourceWave w).getD []).length := by
    intro w hw
    obtain ⟨x, hx⟩ := Option.isSome_iff_exists.mp (hhold w hw)
    refine ⟨x.length, ?_, ?_⟩
    · unfold waveLen
      rw [hx]
    · rw [hx]
      rfl
  obtain ⟨lens, hlens, hflens⟩ := exceptMapM_ok_of_forall waveLen _ ws h1
  have hlenseq := forall₂_waveLen_map hflens
  subst hlenseq
  have hLne : ws.map (fun w => ((sourceWave w).getD []).length) ≠ [] :=
    fun h => hne (List.map_eq_nil_iff.mp h)
  have hminsome :
      (ws.map (fun w => ((sourceWave w).getD []).length)).min? =
        some (minLenWs ws) := by
    cases hLmin : (ws.map (fun w => ((sourceWave w).getD []).length)).min? with
    | none => exact absurd (List.min?_eq_none_iff.mp hLmin) hLne
    | some m =>
      unfold minLenWs
      rw [hLmin]
      rfl
  obtain ⟨hmmem, hmle⟩ := List.min?_eq_some_iff'.mp hminsome
  have hm1 : 1 ≤ minLenWs ws := by
    obtain ⟨w, hw, hwl⟩ := List.mem_map.mp hmmem
    have hpos := List.length_pos.mpr (hnn w hw)
    omega
  have h2 : ∀ w ∈ ws, ∃ out,
      normalizeOne (minLenWs ws) ((sourceWave w).getD []) = Except.ok out ∧
      out.length = minLenWs ws := by
    intro w hw
    have htake : ((sourceWave w).getD []).take (minLenWs ws) ≠ [] := by
      rw [Ne, List.take_eq_nil_iff]
      push_neg
      exact ⟨by omega, hnn w hw⟩
    obtain ⟨out, hout, hlen⟩ := normalizeOne_ok_of_ne_nil htake
    have hle : minLenWs ws ≤ ((sourceWave w).getD []).length :=
      hmle _ (List.mem_map_of_mem _ hw)
    exact ⟨out, hout, by rw [hlen, List.length_take]; omega⟩
  obtain ⟨outs, houts, hfouts⟩ := exceptMapM_ok_of_forall
    (fun w => normalizeOne (minLenWs ws) ((sourceWave w).getD []))
    (fun _ out => out.length = minLenWs ws) ws h2
  refine ⟨outs, ?_, ?_, ?_⟩
  · refine normalize_ok_shape ws ?_ _ hlens outs ?_
    · cases ws with
      | nil => exact absurd rfl hne
      | cons a t => rfl
    · exact houts
  · exact hfouts.length_eq.symm
  · exact hfouts

/-- C3 witness: two raw waves of lengths 220500 and 150000 normalize to two
sequences both of length 150000. -/
theorem claim_C3_witness :
    ∃ outs,
      (normalize_sound_waves
        [WaveSource.raw (List.replicate 220500 (100 : ℤ)),
         WaveSource.raw (List.replicate 150000 (50 : ℤ))]).2 =
        Except.ok (some outs) ∧
      outs.length = 2 ∧
      ∀ out ∈ outs, out.length = 150000 := by
  have hmin : minLenWs
      [WaveSource.raw (List.replicate 220500 (100 : ℤ)),
       WaveSource.raw (List.replicate 150000 (50 : ℤ))] = 150000 := by
    have h1 : ([WaveSource.raw (List.replicate 220500 (100 : ℤ)),
        WaveSource.raw (List.replicate 150000 (50 : ℤ))].map
          (fun w => ((sourceWave w).getD []).length)) =
        [(List.replicate 220500 (100 : ℤ)).length,
         (List.replicate 150000 (50 : ℤ)).length] := rfl
    unfold minLenWs
    rw [h1, List.length_replicate, List.length_replicate]
    rw [show ([220500, 150000] : List ℕ).min? = some (min 220500 150000)
      from rfl]
    rw [Option.getD_some]
    norm_num
  obtain ⟨outs, hout, hlen, hf⟩ := claim_C3
    [WaveSource.raw (List.replicate 220500 (100 : ℤ)),
     WaveSource.raw (List.replicate 150000 (50 : ℤ))]
    (List.cons_ne_nil _ _)
    (by
      intro w hw
      simp only [List.mem_cons, List.not_mem_nil, or_false] at hw
      rcases hw with rfl | rfl <;> rfl)
    (by
      intro w hw
      simp only [List.mem_cons, List.not_mem_nil, or_false] at hw
      rcases hw with rfl | rfl
      · apply List.length_pos.mp
        rw [show (sourceWave (WaveSource.raw
            (List.replicate 220500 (100 : ℤ)))).getD [] =
          List.replicate 220500 (100 : ℤ) from rfl]
        rw [List.length_replicate]
        norm_num
      · apply List.length_pos.mp
        rw [show (sourceWave (WaveSource.raw
            (List.replicate 150000 (50 : ℤ)))).getD [] =
          List.replicate 150000 (50 : ℤ) from rfl]
        rw [List.length_replicate]
        norm_num)
  refine ⟨outs, hout, hlen, ?_⟩
  cases hf with
  | cons ha htail =>
    cases htail with
    | cons hb hnil =>
      cases hnil
      intro out hout2
      simp only [List.mem_cons, List.not_mem_nil, or_false] at hout2
      rcases hout2 with rfl | rfl
      · rw [ha.2, hmin]
      · rw [hb.2, hmin]

end SoundWaves
